import Mathlib

/-!
Verification of the billing / service-lifecycle domain model of the
`mi_isp_backend` repository (Payment ledger in `src/unnamed/part_002` and
`src/unnamed/part_008`, service subscription engine in
`src/models/InternetService.js` plus its controllers).

JavaScript numbers are modelled as `Option ℚ`: `some q` is an ordinary
number, `none` stands for `NaN` (or an `undefined` operand, which any
arithmetic turns into `NaN`).  All arithmetic in the embedded code
propagates `none`, and every JS comparison involving `NaN`/`undefined`
is false, exactly as in the source language.  Dates that are only ever
compared and subtracted (payment dates) are millisecond timestamps `ℤ`;
calendar dates that the code mutates field-wise (billing dates) get a
year/month/day representation with JS `Date` rollover normalisation.
-/

/-- A JS number: `none` models `NaN` (or an `undefined` operand). -/
abbrev JsNum := Option ℚ

/-- JS `+` with NaN propagation. -/
def jsAdd : JsNum → JsNum → JsNum
  | some a, some b => some (a + b)
  | _, _ => none

/-- JS `-` with NaN propagation. -/
def jsSub : JsNum → JsNum → JsNum
  | some a, some b => some (a - b)
  | _, _ => none

/-- JS `*` with NaN propagation (also `undefined * x = NaN`). -/
def jsMul : JsNum → JsNum → JsNum
  | some a, some b => some (a * b)
  | _, _ => none

/-- JS `x || 0`: `NaN`/`undefined` and `0` fall through to `0`. -/
def jsOr0 : JsNum → ℚ
  | some v => v
  | none => 0

/-- JS `a >= b`: false when either side is `NaN`. -/
def jsGe : JsNum → JsNum → Bool
  | some a, some b => decide (b ≤ a)
  | _, _ => false

/-- `list.reduce((sum, x) => sum + x, 0)` over JS numbers. -/
def jsSum (l : List JsNum) : JsNum :=
  l.foldl jsAdd (some 0)

/-- `Math.ceil(a / b)` for integers with `b > 0` (exact division in ℚ then ceil). -/
def ceilDiv (a b : ℤ) : ℤ :=
  -((-a).fdiv b)

/-- Milliseconds per day, `1000 * 60 * 60 * 24` as in the source. -/
def msPerDay : ℤ := 1000 * 60 * 60 * 24

/-- One `services` line item of a Payment (`part_002`): only the fields the
computations read are kept (`amount`). -/
structure ServiceLine where
  amount : JsNum
  deriving DecidableEq

/-- One `additionalCharges` entry of a Payment. -/
structure Charge where
  amount : JsNum
  deriving DecidableEq

/-- One `discounts` entry of a Payment. -/
structure PayDiscount where
  amount : JsNum
  deriving DecidableEq

/-- One `taxes` line of a Payment. -/
structure TaxLine where
  name : String
  rate : JsNum
  amount : JsNum
  deriving DecidableEq

/-- The `latePayment` sub-record of a Payment. -/
structure LatePayment where
  isLate : Bool
  daysLate : ℤ
  lateFeesApplied : JsNum
  lateFeesRate : JsNum
  deriving DecidableEq

/-- One `partialPayments` entry of a Payment. -/
structure PartialPayment where
  amount : JsNum
  deriving DecidableEq

/-- The `status` enum of a Payment; the source string `partial` is spelled
`partialPaid` here because `partial` is a Lean keyword. -/
inductive PayStatus
  | pending
  | completed
  | failed
  | cancelled
  | refunded
  | partialPaid
  deriving DecidableEq

/-- The Payment document (`paymentSchema` in `part_002`), restricted to the
fields read or written by the totals middleware, the late-payment check and
`addPartialPayment`.  `paymentDate` and `dueDate` are ms timestamps. -/
structure Payment where
  services : List ServiceLine
  additionalCharges : List Charge
  discounts : List PayDiscount
  subtotal : JsNum
  totalDiscounts : JsNum
  taxableAmount : JsNum
  taxes : List TaxLine
  totalTaxes : JsNum
  totalAmount : JsNum
  paymentDate : ℤ
  dueDate : ℤ
  status : PayStatus
  partialPayments : List PartialPayment
  latePayment : LatePayment
  deriving DecidableEq

/-- The synchronous `paymentSchema.pre('save')` middleware of `part_002`
(lines 457–486): recomputes `subtotal`, `totalDiscounts`, `taxableAmount`,
`totalTaxes`, `totalAmount`, and sets the late-payment fields when
`dueDate < paymentDate` (there is no else branch in the source: otherwise
`latePayment` is left untouched). -/
def computeTotals (p : Payment) : Payment :=
  let servicesTotal := jsSum (p.services.map (fun s => s.amount))
  let additionalTotal := jsSum (p.additionalCharges.map (fun c => c.amount))
  let subtotal := jsAdd servicesTotal additionalTotal
  let totalDiscounts := jsSum (p.discounts.map (fun d => d.amount))
  let taxableAmount := jsSub subtotal totalDiscounts
  let totalTaxes := jsSum (p.taxes.map (fun t => t.amount))
  let totalAmount := jsAdd (jsAdd taxableAmount totalTaxes) (some (jsOr0 p.latePayment.lateFeesApplied))
  let late :=
    if p.dueDate < p.paymentDate then
      { p.latePayment with
          isLate := true
          daysLate := ceilDiv (p.paymentDate - p.dueDate) msPerDay }
    else p.latePayment
  { p with
      subtotal := subtotal
      totalDiscounts := totalDiscounts
      taxableAmount := taxableAmount
      totalTaxes := totalTaxes
      totalAmount := totalAmount
      latePayment := late }

/-- `paymentSchema.methods.addPartialPayment` (`part_002` lines 489–507):
pushes the partial payment, sets `status` to `completed` when the cumulative
partial payments reach `totalAmount` and to `partial` otherwise, then saves
(which runs the totals middleware). -/
def methodAddPartialPayment (p : Payment) (amount : JsNum) : Payment :=
  let newPartials := p.partialPayments ++ [PartialPayment.mk amount]
  let totalPaid := jsSum (newPartials.map (fun x => x.amount))
  let newStatus :=
    if jsGe totalPaid p.totalAmount then PayStatus.completed else PayStatus.partialPaid
  computeTotals { p with partialPayments := newPartials, status := newStatus }

/-- The status `addPartialPayment` leaves behind, read off the definition. -/
theorem methodAddPartialPayment_status (p : Payment) (amt : JsNum) :
    (methodAddPartialPayment p amt).status
      = if jsGe (jsSum ((p.partialPayments ++ [PartialPayment.mk amt]).map (fun x => x.amount)))
            p.totalAmount
        then PayStatus.completed else PayStatus.partialPaid := rfl

/-- The `addPartialPayment` controller (`part_008` lines 322–357): the only
state guard is `payment.status === 'completed'`; any other status is
accepted and handed to the model method. -/
def ctrlAddPartialPayment (p : Payment) (amount : JsNum) : Except String Payment :=
  if p.status = PayStatus.completed then Except.error "El pago ya esta completado"
  else Except.ok (methodAddPartialPayment p amount)

/-- Theorem statement helper: `true` exactly on the rejected branch. -/
def isRejected : Except String Payment → Bool
  | Except.error _ => true
  | Except.ok _ => false

/-- claim C1: after every save of a Payment the recomputed totals satisfy
`subtotal = Σ service amounts + Σ additional charges`,
`totalDiscounts = Σ discount amounts`,
`taxableAmount = subtotal − totalDiscounts`,
`totalTaxes = Σ tax amounts`, and
`totalAmount = taxableAmount + totalTaxes + lateFeesApplied`; moreover any
caller-supplied values of the five computed fields are overwritten, i.e. the
result of the middleware does not depend on them. -/
theorem claim_C1_payment_totals :
    ∀ p : Payment,
      (computeTotals p).subtotal
          = jsAdd (jsSum (p.services.map (fun s => s.amount)))
                  (jsSum (p.additionalCharges.map (fun c => c.amount)))
      ∧ (computeTotals p).totalDiscounts = jsSum (p.discounts.map (fun d => d.amount))
      ∧ (computeTotals p).taxableAmount
          = jsSub (computeTotals p).subtotal (computeTotals p).totalDiscounts
      ∧ (computeTotals p).totalTaxes = jsSum (p.taxes.map (fun t => t.amount))
      ∧ (computeTotals p).totalAmount
          = jsAdd (jsAdd (computeTotals p).taxableAmount (computeTotals p).totalTaxes)
                  (some (jsOr0 p.latePayment.lateFeesApplied))
      ∧ ∀ s td ta tt tot,
          computeTotals { p with
              subtotal := s, totalDiscounts := td, taxableAmount := ta,
              totalTaxes := tt, totalAmount := tot }
            = computeTotals p := by
  intro p
  refine ⟨rfl, rfl, rfl, rfl, rfl, ?_⟩
  intro s td ta tt tot
  cases p
  rfl

/-- A base Payment used to build concrete test documents: empty line-item
lists, zero totals, schema defaults for `status` and `latePayment`. -/
def basePayment : Payment where
  services := []
  additionalCharges := []
  discounts := []
  subtotal := some 0
  totalDiscounts := some 0
  taxableAmount := some 0
  taxes := []
  totalTaxes := some 0
  totalAmount := some 0
  paymentDate := 0
  dueDate := 0
  status := PayStatus.pending
  partialPayments := []
  latePayment := { isLate := false, daysLate := 0, lateFeesApplied := some 0, lateFeesRate := some 0 }

/-- A payment that was marked late earlier (`isLate = true`, `daysLate = 3`)
whose due date now lies one day after its payment date. -/
def latentLatePayment : Payment :=
  { basePayment with
      dueDate := 86400000
      paymentDate := 0
      latePayment := { isLate := true, daysLate := 3, lateFeesApplied := some 0, lateFeesRate := some 0 } }

/-- claim C3 counterexample: the pre-save middleware has no else branch, so a
payment whose `latePayment.isLate` is already `true` keeps `isLate = true`
after a save even though `dueDate ≥ paymentDate`, refuting the claimed
equivalence `isLate ⇔ dueDate < paymentDate` at this concrete document. -/
theorem claim_C3_counterexample :
    (computeTotals latentLatePayment).latePayment.isLate = true
      ∧ ¬ latentLatePayment.dueDate < latentLatePayment.paymentDate := by
  constructor
  · rfl
  · decide

/-- claim C3 (amended): after every save, if `dueDate < paymentDate` then
`isLate` is set to `true` and `daysLate = ceil((paymentDate − dueDate) /
86400000)`; otherwise the whole `latePayment` sub-record is left unchanged —
in particular `isLate` is `false` after a save only if it was already
`false` before it. -/
theorem claim_C3_amended :
    ∀ p : Payment,
      (computeTotals p).latePayment
        = if p.dueDate < p.paymentDate then
            { p.latePayment with
                isLate := true
                daysLate := ceilDiv (p.paymentDate - p.dueDate) msPerDay }
          else p.latePayment := by
  intro p
  rfl

/-- `createPayment` (`part_008` lines 119–241), shorn of persistence and
authorization: the request's line-item amounts are real numbers, the draft
`paymentData` is assembled without any of the five computed totals (they are
`undefined`, i.e. `none`), the tax line is added with
`amount = paymentData.taxableAmount * taxRate` — read before any
middleware has set `taxableAmount`, hence `undefined * taxRate = NaN` —
and then `payment.save()` runs the totals middleware. -/
def createPaymentDoc (serviceAmounts chargeAmounts discountAmounts : List ℚ)
    (dueDate paymentDate : ℤ) (taxRate : ℚ) : Payment :=
  let draftTaxableAmount : JsNum := none
  let draft : Payment :=
    { services := serviceAmounts.map (fun a => { amount := some a })
      additionalCharges := chargeAmounts.map (fun a => { amount := some a })
      discounts := discountAmounts.map (fun a => { amount := some a })
      subtotal := none
      totalDiscounts := none
      taxableAmount := none
      taxes :=
        if 0 < taxRate then
          [{ name := "IVA", rate := some (taxRate * 100),
             amount := jsMul draftTaxableAmount (some taxRate) }]
        else []
      totalTaxes := none
      totalAmount := none
      paymentDate := paymentDate
      dueDate := dueDate
      status := PayStatus.pending
      partialPayments := []
      latePayment := { isLate := false, daysLate := 0, lateFeesApplied := some 0, lateFeesRate := some 0 } }
  computeTotals draft

/-- `true` when a JS number passes a mongoose `min: 0` validator: `NaN`
(and a still-undefined required number) fails, since `NaN >= 0` is false. -/
def jsNumNonneg : JsNum → Bool
  | some v => decide (0 ≤ v)
  | none => false

/-- The mongoose validations of `paymentSchema` (`part_002`) on the numeric
fields involved in the totals: every computed total and every tax line
amount carries `min: 0` (and the totals are `required`). -/
def paymentValidates (p : Payment) : Bool :=
  jsNumNonneg p.subtotal && jsNumNonneg p.totalDiscounts && jsNumNonneg p.taxableAmount
    && jsNumNonneg p.totalTaxes && jsNumNonneg p.totalAmount
    && p.taxes.all (fun t => jsNumNonneg t.amount)
    && p.services.all (fun s => jsNumNonneg s.amount)
    && p.discounts.all (fun d => jsNumNonneg d.amount)

/-- claim C2: evaluating `createPayment` on the spec scenario (one service
line of 100, one additional charge of 20, one fixed discount of 10, tax
rate 12%) yields `subtotal = 120`, `totalDiscounts = 10`, `taxableAmount
= 110` as claimed, but the tax line amount is `NaN` (the controller reads
`paymentData.taxableAmount` before it exists), so `totalTaxes` and
`totalAmount` are `NaN` rather than 13.2 and 123.2, and the document fails
the schema's `min: 0` validations — the save is rejected. -/
theorem claim_C2_createPayment_nan_taxes :
    (createPaymentDoc [100] [20] [10] 1000 0 (12 / 100)).subtotal = some 120
      ∧ (createPaymentDoc [100] [20] [10] 1000 0 (12 / 100)).totalDiscounts = some 10
      ∧ (createPaymentDoc [100] [20] [10] 1000 0 (12 / 100)).taxableAmount = some 110
      ∧ (createPaymentDoc [100] [20] [10] 1000 0 (12 / 100)).totalTaxes = none
      ∧ (createPaymentDoc [100] [20] [10] 1000 0 (12 / 100)).totalAmount = none
      ∧ paymentValidates (createPaymentDoc [100] [20] [10] 1000 0 (12 / 100)) = false := by
  refine ⟨?_, ?_, ?_, ?_, ?_, ?_⟩ <;>
    norm_num [createPaymentDoc, computeTotals, jsSum, jsAdd, jsSub, jsMul, jsOr0,
      paymentValidates, jsNumNonneg]

/-- claim C10: the partial-payment controller rejects exactly the payments
whose status is `completed`; a payment in status `cancelled`, `failed` or
`refunded` is accepted, and its status is overwritten to `completed` when
the cumulative partial payments reach `totalAmount` and to `partial`
otherwise — the terminal status is not preserved. -/
theorem claim_C10_partial_payment_guard :
    ∀ (p : Payment) (amt : JsNum),
      (isRejected (ctrlAddPartialPayment p amt) = true ↔ p.status = PayStatus.completed)
      ∧ ((p.status = PayStatus.cancelled ∨ p.status = PayStatus.failed
            ∨ p.status = PayStatus.refunded) →
          ctrlAddPartialPayment p amt
            = Except.ok (methodAddPartialPayment p amt)
          ∧ ((methodAddPartialPayment p amt).status = PayStatus.completed
              ∨ (methodAddPartialPayment p amt).status = PayStatus.partialPaid)
          ∧ ((methodAddPartialPayment p amt).status = PayStatus.completed
              ↔ jsGe (jsSum ((p.partialPayments ++ [PartialPayment.mk amt]).map
                    (fun x => x.amount))) p.totalAmount = true)) := by
  intro p amt
  constructor
  · unfold ctrlAddPartialPayment isRejected
    by_cases h : p.status = PayStatus.completed <;> simp [h]
  · intro hst
    have hne : ¬ p.status = PayStatus.completed := by
      rcases hst with h | h | h <;> simp [h]
    refine ⟨by simp [ctrlAddPartialPayment, hne], ?_, ?_⟩
    · cases hge : jsGe (jsSum ((p.partialPayments ++ [PartialPayment.mk amt]).map
          (fun x => x.amount))) p.totalAmount <;>
        simp only [List.map_append, List.map_cons, List.map_nil] at hge
      · right; simp [methodAddPartialPayment_status, hge]
      · left; simp [methodAddPartialPayment_status, hge]
    · cases hge : jsGe (jsSum ((p.partialPayments ++ [PartialPayment.mk amt]).map
          (fun x => x.amount))) p.totalAmount <;>
        simp only [List.map_append, List.map_cons, List.map_nil] at hge
      · simp [methodAddPartialPayment_status, hge]
      · simp [methodAddPartialPayment_status, hge]

/-- claim C10, witness: a concrete cancelled payment with total 100 and one
partial payment of 30 is accepted and moved to status `partial`. -/
theorem claim_C10_witness :
    ctrlAddPartialPayment { basePayment with status := PayStatus.cancelled, totalAmount := some 100 } (some 30)
        = Except.ok (methodAddPartialPayment { basePayment with status := PayStatus.cancelled, totalAmount := some 100 } (some 30))
      ∧ ((methodAddPartialPayment { basePayment with status := PayStatus.cancelled, totalAmount := some 100 } (some 30)).status = PayStatus.completed
          ∨ (methodAddPartialPayment { basePayment with status := PayStatus.cancelled, totalAmount := some 100 } (some 30)).status = PayStatus.partialPaid) := by
  have h := (claim_C10_partial_payment_guard
      { basePayment with status := PayStatus.cancelled, totalAmount := some 100 } (some 30)).2
      (Or.inl rfl)
  exact ⟨h.1, h.2.1⟩

/-- Leap-year test, as JS `Date` implements the Gregorian rules. -/
def isLeap (y : ℤ) : Bool :=
  y % 4 = 0 && (y % 100 ≠ 0 || y % 400 = 0)

/-- Days in month `m` (0-based, JS convention) of year `y`. -/
def daysInMonth (y m : ℤ) : ℤ :=
  if m = 1 then (if isLeap y then 29 else 28)
  else if m = 3 ∨ m = 5 ∨ m = 8 ∨ m = 10 then 30
  else 31

/-- A JS calendar date: year, 0-based month, 1-based day-of-month.  The code
being embedded only ever compares dates that carry the same time-of-day, so
the time component is dropped. -/
structure JsDate where
  year : ℤ
  month : ℤ
  day : ℤ
  deriving DecidableEq

/-- Day-of-month normalisation of JS `Date` (rolling an out-of-range day
into the neighbouring months); fuel-driven, with enough fuel for every
value the embedded code can produce (`setDate` inputs are at most 31). -/
def fixDay : ℕ → ℤ → ℤ → ℤ → JsDate
  | 0, y, m, d => ⟨y, m, d⟩
  | fuel + 1, y, m, d =>
    if d < 1 then
      let m2 := if m = 0 then (11 : ℤ) else m - 1
      let y2 := if m = 0 then y - 1 else y
      fixDay fuel y2 m2 (d + daysInMonth y2 m2)
    else if d > daysInMonth y m then
      let m2 := if m = 11 then (0 : ℤ) else m + 1
      let y2 := if m = 11 then y + 1 else y
      fixDay fuel y2 m2 (d - daysInMonth y m)
    else ⟨y, m, d⟩

/-- Build the JS date with the given (possibly out-of-range) components,
normalising exactly as a JS `Date` does on every field assignment. -/
def mkDate (y m d : ℤ) : JsDate :=
  fixDay 40 (y + m.fdiv 12) (m.emod 12) d

/-- JS `date.setDate(d)`: replace the day-of-month, normalising. -/
def setDate (dt : JsDate) (d : ℤ) : JsDate :=
  mkDate dt.year dt.month d

/-- JS `date.setMonth(m)`: replace the month, normalising. -/
def setMonth (dt : JsDate) (m : ℤ) : JsDate :=
  mkDate dt.year m dt.day

/-- JS `a <= b` on dates carrying equal times-of-day: chronological order
is the lexicographic order on (year, month, day). -/
def dateLE (a b : JsDate) : Bool :=
  if a.year ≠ b.year then decide (a.year < b.year)
  else if a.month ≠ b.month then decide (a.month < b.month)
  else decide (a.day ≤ b.day)

/-- The discount `type` enum of `internetServiceSchema` (source strings
`percentage`, `fixed_amount`, `free_months`). -/
inductive DiscountType
  | percentage
  | fixedAmount
  | freeMonths
  deriving DecidableEq

/-- One `discounts` entry of an InternetService.  `validFrom`/`validUntil`
are optional in the schema; `none` models an absent date, which every JS
comparison treats as false (`Date >= undefined` is `NaN`-comparison). -/
structure SvcDiscount where
  dtype : DiscountType
  value : ℚ
  validFrom : Option ℤ
  validUntil : Option ℤ
  isActive : Bool
  deriving DecidableEq

/-- One `suspensions` entry of an InternetService. -/
structure Suspension where
  reason : String
  suspendedAt : ℤ
  suspendedBy : ℕ
  reactivatedAt : Option ℤ
  reactivatedBy : Option ℕ
  notes : String
  isActive : Bool
  deriving DecidableEq

/-- The service `status` enum of `internetServiceSchema`. -/
inductive SvcStatus
  | pendingInstallation
  | active
  | suspended
  | cancelled
  | pendingCancellation
  | maintenance
  deriving DecidableEq

/-- The `contract` sub-record (only the field the embedded computations
read). -/
structure Contract where
  startDate : JsDate
  deriving DecidableEq

/-- The `billing` sub-record of an InternetService. -/
structure Billing where
  monthlyFee : ℚ
  billingCycle : String
  billingDay : ℤ
  nextBillingDate : Option JsDate
  deriving DecidableEq

/-- The InternetService document (`src/models/InternetService.js`),
restricted to the fields the verified computations read or write. -/
structure Service where
  status : SvcStatus
  contract : Contract
  billing : Billing
  discounts : List SvcDiscount
  suspensions : List Suspension
  deriving DecidableEq

/-- The filter predicate of `getCurrentMonthlyCost`
(`InternetService.js` lines 487–491): `discount.isActive && new Date() >=
discount.validFrom && new Date() <= discount.validUntil`; a missing bound
makes the comparison false. -/
def discountActiveNow (now : ℤ) (d : SvcDiscount) : Bool :=
  d.isActive
    && (match d.validFrom with
        | some t => decide (t ≤ now)
        | none => false)
    && (match d.validUntil with
        | some t => decide (now ≤ t)
        | none => false)

/-- The loop body of `getCurrentMonthlyCost` (lines 493–499): percentage
discounts multiply, fixed amounts subtract, anything else (`free_months`)
is skipped. -/
def applyDiscount (cost : ℚ) (d : SvcDiscount) : ℚ :=
  match d.dtype with
  | DiscountType.percentage => cost * (1 - d.value / 100)
  | DiscountType.fixedAmount => cost - d.value
  | DiscountType.freeMonths => cost

/-- `internetServiceSchema.methods.getCurrentMonthlyCost`
(`InternetService.js` lines 482–502): filter the active in-window
discounts, fold them over the monthly fee in list order, clamp at 0. -/
def getCurrentMonthlyCost (s : Service) (now : ℤ) : ℚ :=
  max 0 ((s.discounts.filter (discountActiveNow now)).foldl applyDiscount s.billing.monthlyFee)

/-- The spec's wording of `currentMonthlyCost` (§4.2): walk the discounts in
list order, applying each one that is active and inside its validity
window, then clamp the result at 0.  Stated separately so the code can be
proved to refine it. -/
def specApplyDiscounts (now : ℤ) : ℚ → List SvcDiscount → ℚ
  | cost, [] => cost
  | cost, d :: ds =>
    if discountActiveNow now d then specApplyDiscounts now (applyDiscount cost d) ds
    else specApplyDiscounts now cost ds

/-- The spec's wording of the whole computation. -/
def spec_currentMonthlyCost (s : Service) (now : ℤ) : ℚ :=
  max 0 (specApplyDiscounts now s.billing.monthlyFee s.discounts)

/-- Folding over the filtered list is the same as the spec's conditional
walk. -/
theorem foldl_filter_eq_specApply (now : ℤ) :
    ∀ (ds : List SvcDiscount) (cost : ℚ),
      (ds.filter (discountActiveNow now)).foldl applyDiscount cost
        = specApplyDiscounts now cost ds := by
  intro ds
  induction ds with
  | nil => intro cost; rfl
  | cons d t ih =>
    intro cost
    cases hd : discountActiveNow now d <;>
      simp [List.filter_cons, hd, specApplyDiscounts, ih]

/-- A service with a $50 monthly fee and one active 20% discount whose
window contains the probe instant 500000. -/
def svcFee50Disc20 : Service where
  status := SvcStatus.active
  contract := { startDate := ⟨2024, 0, 1⟩ }
  billing := { monthlyFee := 50, billingCycle := "monthly", billingDay := 1, nextBillingDate := none }
  discounts := [{ dtype := DiscountType.percentage, value := 20,
                  validFrom := some 0, validUntil := some 1000000, isActive := true }]
  suspensions := []

/-- The same service with an additional active $5 fixed discount listed
after the percentage one. -/
def svcFee50Disc20Fixed5 : Service :=
  { svcFee50Disc20 with
      discounts := svcFee50Disc20.discounts
        ++ [{ dtype := DiscountType.fixedAmount, value := 5,
              validFrom := some 0, validUntil := some 1000000, isActive := true }] }

/-- claim C4: `getCurrentMonthlyCost` starts from `billing.monthlyFee`,
applies every discount that is `isActive` and inside its validity window in
list order (percentage multiplies by `1 − value/100`, fixed amount
subtracts, `free_months` is skipped) and clamps at 0: it equals the
spec-worded computation; a $50 fee with an active 20% discount yields $40
and with a further $5 fixed discount $35; and the result is never
negative. -/
theorem claim_C4_monthly_cost :
    (∀ (s : Service) (now : ℤ), getCurrentMonthlyCost s now = spec_currentMonthlyCost s now)
      ∧ (∀ (s : Service) (now : ℤ), 0 ≤ getCurrentMonthlyCost s now)
      ∧ getCurrentMonthlyCost svcFee50Disc20 500000 = 40
      ∧ getCurrentMonthlyCost svcFee50Disc20Fixed5 500000 = 35 := by
  refine ⟨?_, ?_, ?_, ?_⟩
  · intro s now
    unfold getCurrentMonthlyCost spec_currentMonthlyCost
    rw [foldl_filter_eq_specApply]
  · intro s now
    exact le_max_left 0 _
  · norm_num [getCurrentMonthlyCost, svcFee50Disc20, discountActiveNow, applyDiscount,
      List.filter, List.foldl]
  · norm_num [getCurrentMonthlyCost, svcFee50Disc20Fixed5, svcFee50Disc20, discountActiveNow,
      applyDiscount, List.filter, List.foldl]

/-- `true` iff both validity bounds of the discount are present. -/
def hasBothBounds (d : SvcDiscount) : Bool :=
  d.validFrom.isSome && d.validUntil.isSome

/-- A discount missing a validity bound never passes the activity filter. -/
theorem discountActiveNow_of_missing_bound (now : ℤ) (d : SvcDiscount) :
    hasBothBounds d = false → discountActiveNow now d = false := by
  unfold hasBothBounds discountActiveNow
  cases d.validFrom <;> cases d.validUntil <;> simp [Option.isSome]

/-- Dropping the discounts that miss a bound does not change the filtered
list. -/
theorem filter_active_drop_unbounded (now : ℤ) :
    ∀ ds : List SvcDiscount,
      ds.filter (discountActiveNow now)
        = (ds.filter hasBothBounds).filter (discountActiveNow now) := by
  intro ds
  induction ds with
  | nil => rfl
  | cons d t ih =>
    cases hb : hasBothBounds d
    · have ha := discountActiveNow_of_missing_bound now d hb
      simp [List.filter_cons, hb, ha, ih]
    · simp [List.filter_cons, hb, ih]

/-- claim C9: a discount whose `validFrom` or `validUntil` is absent is
never applied by `getCurrentMonthlyCost`, even when `isActive` is true —
the date comparisons against a missing bound fail — so the returned cost is
the cost computed from the remaining (fully bounded) discounts only. -/
theorem claim_C9_missing_bounds_ignored :
    (∀ (s : Service) (now : ℤ),
        getCurrentMonthlyCost s now
          = getCurrentMonthlyCost { s with discounts := s.discounts.filter hasBothBounds } now)
      ∧ (∀ (now : ℤ) (d : SvcDiscount),
          (d.validFrom = none ∨ d.validUntil = none) → d.isActive = true →
            discountActiveNow now d = false) := by
  constructor
  · intro s now
    unfold getCurrentMonthlyCost
    rw [filter_active_drop_unbounded]
  · intro now d hmiss _
    apply discountActiveNow_of_missing_bound
    unfold hasBothBounds
    rcases hmiss with h | h <;> simp [h]

/-- claim C9, witness: an active percentage discount with no `validUntil`
is ignored at the concrete instant 500000, and the cost of a service
carrying only that discount is the bare monthly fee. -/
theorem claim_C9_witness :
    discountActiveNow 500000
        { dtype := DiscountType.percentage, value := 20,
          validFrom := some 0, validUntil := none, isActive := true } = false
      ∧ getCurrentMonthlyCost
          { svcFee50Disc20 with
              discounts := [{ dtype := DiscountType.percentage, value := 20,
                              validFrom := some 0, validUntil := none, isActive := true }] } 500000
        = getCurrentMonthlyCost { svcFee50Disc20 with discounts := [] } 500000 := by
  constructor
  · exact (claim_C9_missing_bounds_ignored).2 500000
      { dtype := DiscountType.percentage, value := 20,
        validFrom := some 0, validUntil := none, isActive := true } (Or.inr rfl) rfl
  · exact (claim_C9_missing_bounds_ignored).1
      { svcFee50Disc20 with
          discounts := [{ dtype := DiscountType.percentage, value := 20,
                          validFrom := some 0, validUntil := none, isActive := true }] } 500000

/-- The next-billing-date computation inside the
`internetServiceSchema.pre('save')` middleware (`InternetService.js` lines
385–403): copy the contract start date, `setDate(billingDay)`, and if the
candidate is `<=` the start date advance it one month. -/
def computeNextBillingDate (startDate : JsDate) (billingDay : ℤ) : JsDate :=
  let nextBilling := setDate startDate billingDay
  if dateLE nextBilling startDate then setMonth nextBilling (nextBilling.month + 1)
  else nextBilling

/-- The guarded middleware itself: it fires only when
`isModified('contract.startDate') || isModified('billing.billingCycle')` —
note the source checks the billing *cycle*, not the billing day.  A path is
modified when the document is new (`prev = none`) or the value differs
from the persisted one. -/
def serviceSaveBilling (prev : Option Service) (s : Service) : Service :=
  let startModified :=
    match prev with
    | none => true
    | some q => decide (q.contract.startDate ≠ s.contract.startDate)
  let cycleModified :=
    match prev with
    | none => true
    | some q => decide (q.billing.billingCycle ≠ s.billing.billingCycle)
  if startModified || cycleModified then
    { s with billing :=
        { s.billing with
            nextBillingDate := some (computeNextBillingDate s.contract.startDate s.billing.billingDay) } }
  else s

/-- A persisted service used for the C5 counterexample: contract start
2024-03-20 (month index 2), billing day 10, next billing date 2024-04-10. -/
def svcBillingDay10 : Service where
  status := SvcStatus.active
  contract := { startDate := ⟨2024, 2, 20⟩ }
  billing := { monthlyFee := 50, billingCycle := "monthly", billingDay := 10,
               nextBillingDate := some ⟨2024, 3, 10⟩ }
  discounts := []
  suspensions := []

/-- The same service with only the billing day changed to 15. -/
def svcBillingDay15 : Service :=
  { svcBillingDay10 with
      billing := { svcBillingDay10.billing with billingDay := 15 } }

/-- claim C5 counterexample: saving a service whose only change is its
billing day (10 → 15) does not recompute `nextBillingDate` — the middleware
fires on start-date or billing-*cycle* changes only — so the stored date
stays 2024-04-10 although the claimed recomputation would give
2024-04-15. -/
theorem claim_C5_counterexample :
    (serviceSaveBilling (some svcBillingDay10) svcBillingDay15).billing.nextBillingDate
        = some ⟨2024, 3, 10⟩
      ∧ computeNextBillingDate svcBillingDay15.contract.startDate
            svcBillingDay15.billing.billingDay = ⟨2024, 3, 15⟩
      ∧ (⟨2024, 3, 10⟩ : JsDate) ≠ ⟨2024, 3, 15⟩ := by
  refine ⟨?_, ?_, ?_⟩ <;> decide

/-- claim C5 (amended): the middleware recomputes
`billing.nextBillingDate` when the contract start date or the billing
*cycle* changes, and on creation; changing the billing day alone does not
trigger it.  When it fires, the candidate is the start date with its
day-of-month replaced by the billing day, advanced one month if it is `<=`
the start date; a creation with billing day 15 and contract start
2024-03-20 yields 2024-04-15. -/
theorem claim_C5_amended :
    (∀ s : Service,
        (serviceSaveBilling none s).billing.nextBillingDate
          = some (computeNextBillingDate s.contract.startDate s.billing.billingDay))
      ∧ (∀ (q s : Service),
          q.contract.startDate ≠ s.contract.startDate →
            (serviceSaveBilling (some q) s).billing.nextBillingDate
              = some (computeNextBillingDate s.contract.startDate s.billing.billingDay))
      ∧ (∀ (q s : Service),
          q.billing.billingCycle ≠ s.billing.billingCycle →
            (serviceSaveBilling (some q) s).billing.nextBillingDate
              = some (computeNextBillingDate s.contract.startDate s.billing.billingDay))
      ∧ (∀ (q s : Service),
          q.contract.startDate = s.contract.startDate →
          q.billing.billingCycle = s.billing.billingCycle →
            serviceSaveBilling (some q) s = s)
      ∧ computeNextBillingDate ⟨2024, 2, 20⟩ 15 = ⟨2024, 3, 15⟩ := by
  refine ⟨?_, ?_, ?_, ?_, by decide⟩
  · intro s
    rfl
  · intro q s h
    simp [serviceSaveBilling, h]
  · intro q s h
    simp [serviceSaveBilling, h]
  · intro q s h1 h2
    simp [serviceSaveBilling, h1, h2]

/-- claim C5, witness: instantiating the amended claim on the concrete
spec scenario — a freshly created service with start 2024-03-20 and billing
day 15 gets next billing date 2024-04-15 — on a cycle-only change of the
billing-day-10 service (monthly → quarterly), which recomputes
2024-04-10, and on a no-trigger save of that service against itself. -/
theorem claim_C5_witness :
    (serviceSaveBilling none svcBillingDay15).billing.nextBillingDate = some ⟨2024, 3, 15⟩
      ∧ (serviceSaveBilling (some svcBillingDay10)
            { svcBillingDay10 with
                billing := { svcBillingDay10.billing with billingCycle := "quarterly" } }
          ).billing.nextBillingDate = some ⟨2024, 3, 10⟩
      ∧ serviceSaveBilling (some svcBillingDay10) svcBillingDay10 = svcBillingDay10 := by
  refine ⟨?_, ?_, ?_⟩
  · rw [claim_C5_amended.1 svcBillingDay15]
    decide
  · rw [claim_C5_amended.2.2.1 svcBillingDay10
      { svcBillingDay10 with
          billing := { svcBillingDay10.billing with billingCycle := "quarterly" } }
      (by decide)]
    decide
  · exact claim_C5_amended.2.2.2.1 svcBillingDay10 svcBillingDay10 rfl rfl

/-- `internetServiceSchema.methods.suspend` (`InternetService.js` lines
410–420): set status to `suspended` and push a suspension event; the
schema defaults give the new event `isActive = true`, `suspendedAt = now`
and no reactivation data. -/
def suspendMethod (s : Service) (reason : String) (userId : ℕ) (notes : String) (now : ℤ) : Service :=
  { s with
      status := SvcStatus.suspended
      suspensions := s.suspensions
        ++ [{ reason := reason, suspendedAt := now, suspendedBy := userId,
              reactivatedAt := none, reactivatedBy := none, notes := notes, isActive := true }] }

/-- The in-place update `reactivate` performs on the suspensions array:
`find` locates the first event with `isActive` and marks it inactive with
the reactivation timestamp/actor, appending to its notes only when the
notes argument is non-empty. -/
def reactivateSusp : List Suspension → ℕ → ℤ → String → List Suspension
  | [], _, _, _ => []
  | x :: xs, userId, now, notes =>
    if x.isActive then
      { x with
          isActive := false
          reactivatedAt := some now
          reactivatedBy := some userId
          notes := x.notes ++ (if notes ≠ "" then " | Reactivacion: " ++ notes else "") } :: xs
    else x :: reactivateSusp xs userId now notes

/-- `internetServiceSchema.methods.reactivate` (lines 422–437): status back
to `active`, first active suspension closed. -/
def reactivateMethod (s : Service) (userId : ℕ) (now : ℤ) (notes : String) : Service :=
  { s with
      status := SvcStatus.active
      suspensions := reactivateSusp s.suspensions userId now notes }

/-- The state-changing operations the controllers expose on a service's
status/suspension bookkeeping: guarded suspend and reactivate
(`internetServiceController.js` lines 360–434) and the direct status write
shared by `toggleServiceStatus` (`part_006` lines 805–829) and
`updateService`'s `$set` of `status`. -/
inductive SvcOp
  | suspendOp (reason : String) (userId : ℕ) (notes : String)
  | reactivateOp (userId : ℕ) (notes : String)
  | setStatusOp (st : SvcStatus)
  deriving DecidableEq

/-- One controller call: `suspendService` rejects (leaving the document
unchanged) when the status is already `suspended`, `reactivateService`
rejects unless it is `suspended`, and the direct status write always
succeeds and touches nothing but `status`. -/
def execOp (now : ℤ) (s : Service) : SvcOp → Service
  | SvcOp.suspendOp reason userId notes =>
    if s.status = SvcStatus.suspended then s else suspendMethod s reason userId notes now
  | SvcOp.reactivateOp userId notes =>
    if s.status = SvcStatus.suspended then reactivateMethod s userId now notes else s
  | SvcOp.setStatusOp st => { s with status := st }

/-- Run a sequence of controller calls (all at the same probe instant: the
timestamps play no role in the invariant). -/
def runOps (now : ℤ) (s : Service) (ops : List SvcOp) : Service :=
  ops.foldl (execOp now) s

/-- `createService` (`internetServiceController.js` lines 112–211) always
persists a new document with `status: 'pending_installation'` and the
schema default `suspensions: []`; the first save runs the billing
middleware. -/
def mkCreatedService (c : Contract) (b : Billing) (ds : List SvcDiscount) : Service :=
  serviceSaveBilling none
    { status := SvcStatus.pendingInstallation, contract := c, billing := b,
      discounts := ds, suspensions := [] }

/-- Number of suspension events currently flagged active. -/
def countActiveList (l : List Suspension) : ℕ :=
  (l.filter (fun x => x.isActive)).length

/-- Number of active suspension events of a service. -/
def countActiveSusp (s : Service) : ℕ :=
  countActiveList s.suspensions

/-- The suspension-bookkeeping invariant claimed in the spec. -/
def suspInvariant (s : Service) : Prop :=
  countActiveSusp s ≤ 1 ∧ (s.status = SvcStatus.suspended ↔ 1 ≤ countActiveSusp s)

/-- A concrete created service reused by the C6/C7 theorems. -/
def svcFresh : Service :=
  mkCreatedService { startDate := ⟨2024, 2, 20⟩ }
    { monthlyFee := 50, billingCycle := "monthly", billingDay := 15, nextBillingDate := none } []

/-- claim C6 counterexample: the invariant is violated by states reachable
through the exposed operations.  Setting the status directly to
`suspended` (toggle/update) yields a suspended service with no suspension
event, and suspend → toggle-to-active → suspend yields two simultaneously
active suspension events. -/
theorem claim_C6_counterexample :
    (runOps 0 svcFresh [SvcOp.setStatusOp SvcStatus.suspended]).status = SvcStatus.suspended
      ∧ countActiveSusp (runOps 0 svcFresh [SvcOp.setStatusOp SvcStatus.suspended]) = 0
      ∧ countActiveSusp (runOps 0 svcFresh
          [SvcOp.suspendOp "non_payment" 1 "", SvcOp.setStatusOp SvcStatus.active,
           SvcOp.suspendOp "abuse" 1 ""]) = 2 := by
  refine ⟨?_, ?_, ?_⟩ <;> decide

/-- `true` on the operations that keep status and suspension bookkeeping in
lock step (everything except the direct status write). -/
def keepsBookkeeping : SvcOp → Bool
  | SvcOp.setStatusOp _ => false
  | _ => true

/-- Closing the first active suspension empties the active set when at most
one event was active. -/
theorem countActiveList_reactivate (userId : ℕ) (now : ℤ) (notes : String) :
    ∀ l : List Suspension, countActiveList l ≤ 1 →
      countActiveList (reactivateSusp l userId now notes) = 0 := by
  intro l
  induction l with
  | nil => intro _; rfl
  | cons x xs ih =>
    intro h
    cases hx : x.isActive
    · have h' : countActiveList xs ≤ 1 := by
        simpa [countActiveList, List.filter_cons, hx] using h
      simpa [countActiveList, reactivateSusp, hx, List.filter_cons] using ih h'
    · have h0 : (xs.filter (fun y => y.isActive)).length = 0 := by
        simp [countActiveList, List.filter_cons, hx] at h
        simpa using h
      simp [countActiveList, reactivateSusp, hx, List.filter_cons, h0]

/-- Appending a fresh active event adds one to the active count. -/
theorem countActiveList_append_active (l : List Suspension) (x : Suspension)
    (hx : x.isActive = true) :
    countActiveList (l ++ [x]) = countActiveList l + 1 := by
  unfold countActiveList
  simp [List.filter_append, hx]

/-- Each bookkeeping-preserving controller call preserves the invariant. -/
theorem suspInvariant_step (now : ℤ) (s : Service) (op : SvcOp)
    (hop : keepsBookkeeping op = true) (hinv : suspInvariant s) :
    suspInvariant (execOp now s op) := by
  obtain ⟨hle, hiff⟩ := hinv
  cases op with
  | suspendOp reason userId notes =>
    by_cases hs : s.status = SvcStatus.suspended
    · simpa [execOp, hs] using ⟨hle, hiff⟩
    · have h0 : countActiveSusp s = 0 := by
        rcases Nat.eq_or_lt_of_le hle with h | h
        · exact absurd (hiff.mpr h.ge) hs
        · omega
      unfold suspInvariant countActiveSusp at *
      simp only [execOp, hs, if_false, suspendMethod]
      constructor
      · rw [countActiveList_append_active _ _ rfl, h0]
      · rw [countActiveList_append_active _ _ rfl, h0]
        simp
  | reactivateOp userId notes =>
    by_cases hs : s.status = SvcStatus.suspended
    · unfold suspInvariant countActiveSusp at *
      simp only [execOp, hs, if_true, reactivateMethod]
      rw [countActiveList_reactivate userId now notes s.suspensions hle]
      simp
    · simpa [execOp, hs] using ⟨hle, hiff⟩
  | setStatusOp st => simp [keepsBookkeeping] at hop

/-- claim C6 (amended): along runs of the exposed operations that avoid
the direct status write — i.e. create, guarded suspend and guarded
reactivate — at most one suspension event is active at a time and the
status is `suspended` exactly when an active suspension event exists.
`toggleServiceStatus`/`updateService` write `status` without touching the
suspension history and break both conjuncts (see the counterexample). -/
theorem claim_C6_amended :
    ∀ (now : ℤ) (c : Contract) (b : Billing) (ds : List SvcDiscount) (ops : List SvcOp),
      (∀ op ∈ ops, keepsBookkeeping op = true) →
      suspInvariant (runOps now (mkCreatedService c b ds) ops) := by
  intro now c b ds ops hops
  have hinit : suspInvariant (mkCreatedService c b ds) := by
    unfold suspInvariant countActiveSusp mkCreatedService serviceSaveBilling countActiveList
    simp
  revert hinit
  generalize mkCreatedService c b ds = s0
  induction ops generalizing s0 with
  | nil => intro h; exact h
  | cons op rest ih =>
    intro h
    have hop := hops op (List.mem_cons_self op rest)
    have hrest : ∀ o ∈ rest, keepsBookkeeping o = true := fun o ho =>
      hops o (List.mem_cons_of_mem op ho)
    exact ih hrest (execOp now s0 op) (suspInvariant_step now s0 op hop h)

/-- claim C6, witness: the invariant holds at the end of the concrete run
create → suspend → reactivate → suspend. -/
theorem claim_C6_witness :
    suspInvariant (runOps 0 svcFresh
      [SvcOp.suspendOp "non_payment" 1 "", SvcOp.reactivateOp 1 "ok",
       SvcOp.suspendOp "abuse" 2 ""]) := by
  have h := claim_C6_amended 0 { startDate := ⟨2024, 2, 20⟩ }
    { monthlyFee := 50, billingCycle := "monthly", billingDay := 15, nextBillingDate := none } []
    [SvcOp.suspendOp "non_payment" 1 "", SvcOp.reactivateOp 1 "ok", SvcOp.suspendOp "abuse" 2 ""]
    (by intro op hop; fin_cases hop <;> rfl)
  exact h

/-- A service that was suspended and reactivated once in the past: one
suspension event, inactive, with its reactivation data set; currently
active (so it has no active suspension event). -/
def svcWithHistory : Service :=
  { svcFresh with
      status := SvcStatus.active
      suspensions := [{ reason := "non_payment", suspendedAt := 0, suspendedBy := 1,
                        reactivatedAt := some 5, reactivatedBy := some 1,
                        notes := "", isActive := false }] }

/-- claim C7 counterexample: the claim quantifies over every subscription
with no *active* suspension event, but a subscription with one inactive
historical event ends the suspend–reactivate round trip with two
suspension events, not exactly one. -/
theorem claim_C7_counterexample :
    countActiveSusp svcWithHistory = 0
      ∧ svcWithHistory.status ≠ SvcStatus.suspended
      ∧ (runOps 0 svcWithHistory
            [SvcOp.suspendOp "abuse" 2 "", SvcOp.reactivateOp 2 ""]).status = SvcStatus.active
      ∧ (runOps 0 svcWithHistory
            [SvcOp.suspendOp "abuse" 2 "", SvcOp.reactivateOp 2 ""]).suspensions.length = 2 := by
  refine ⟨?_, ?_, ?_, ?_⟩ <;> decide

/-- claim C7 (amended): for a subscription with no suspension events at all
(and status not already `suspended`, so the guarded suspend goes through),
suspend followed by reactivate returns it to status `active` with exactly
one suspension event, inactive and with `reactivatedAt` set.  For a
subscription with prior (inactive) history the round trip instead appends
exactly one such event. -/
theorem claim_C7_amended :
    ∀ (s : Service) (reason : String) (uid uid2 : ℕ) (notes notes2 : String) (now now2 : ℤ),
      s.suspensions = [] → s.status ≠ SvcStatus.suspended →
      (runOps now2 s [SvcOp.suspendOp reason uid notes] = execOp now2 s (SvcOp.suspendOp reason uid notes))
      ∧ (execOp now2 (execOp now s (SvcOp.suspendOp reason uid notes))
            (SvcOp.reactivateOp uid2 notes2)).status = SvcStatus.active
      ∧ ∃ x : Suspension,
          (execOp now2 (execOp now s (SvcOp.suspendOp reason uid notes))
              (SvcOp.reactivateOp uid2 notes2)).suspensions = [x]
          ∧ x.isActive = false ∧ x.reactivatedAt = some now2 := by
  intro s reason uid uid2 notes notes2 now now2 hemp hst
  refine ⟨rfl, ?_, ?_⟩
  · simp [execOp, hst, suspendMethod, reactivateMethod]
  · refine ⟨{ reason := reason, suspendedAt := now, suspendedBy := uid,
              reactivatedAt := some now2, reactivatedBy := some uid2,
              notes := notes ++ (if notes2 ≠ "" then " | Reactivacion: " ++ notes2 else ""),
              isActive := false }, ?_, rfl, rfl⟩
    simp [execOp, hst, suspendMethod, reactivateMethod, hemp, reactivateSusp]

/-- claim C7, witness: applying the amended round-trip property to the
freshly created service (empty suspension history, status
`pending_installation`). -/
theorem claim_C7_witness :
    (execOp 20 (execOp 10 svcFresh (SvcOp.suspendOp "non_payment" 1 "n"))
        (SvcOp.reactivateOp 2 "back")).status = SvcStatus.active
      ∧ ∃ x : Suspension,
          (execOp 20 (execOp 10 svcFresh (SvcOp.suspendOp "non_payment" 1 "n"))
              (SvcOp.reactivateOp 2 "back")).suspensions = [x]
          ∧ x.isActive = false ∧ x.reactivatedAt = some 20 := by
  have h := claim_C7_amended svcFresh "non_payment" 1 2 "n" "back" 10 20 (by decide) (by decide)
  exact ⟨h.2.1, h.2.2⟩

/-- Decimal digits of `n`, least significant first, fuel-driven (`fuel ≥ n`
suffices); the empty list for 0. -/
def digitsAux : ℕ → ℕ → List ℕ
  | 0, _ => []
  | fuel + 1, n => if n = 0 then [] else n % 10 :: digitsAux fuel (n / 10)

/-- The decimal digits of JS `String(n)`, least significant first. -/
def jsDigits (n : ℕ) : List ℕ :=
  if n = 0 then [0] else digitsAux n n

/-- JS `padStart(8, '0')` on a digit string: in least-significant-first
order, prepending zero characters is appending zero digits. -/
def padStart8 (l : List ℕ) : List ℕ :=
  l ++ List.replicate (8 - l.length) 0

/-- The digit part of a generated service code `SRV` + 8-digit zero-padded
sequence (`InternetService.js` lines 376–383).  The constant `SRV` prefix
and the digit-to-character rendering are injective, so codes are compared
through this digit list. -/
def serviceCodeOf (seq : ℕ) : List ℕ :=
  padStart8 (jsDigits seq)

/-- Numeric value of a least-significant-first digit list. -/
def digitsVal (l : List ℕ) : ℕ :=
  l.foldr (fun d acc => d + 10 * acc) 0

/-- `digitsAux` round-trips through `digitsVal` when given enough fuel. -/
theorem digitsVal_digitsAux : ∀ (fuel n : ℕ), n ≤ fuel → digitsVal (digitsAux fuel n) = n := by
  intro fuel
  induction fuel with
  | zero => intro n h; interval_cases n; rfl
  | succ f ih =>
    intro n h
    by_cases h0 : n = 0
    · simp [digitsAux, h0, digitsVal]
    · have hdiv : n / 10 ≤ f := by
        have : n / 10 < n := Nat.div_lt_self (Nat.pos_of_ne_zero h0) (by norm_num)
        omega
      simp only [digitsAux, h0, if_false, digitsVal, List.foldr]
      have := ih (n / 10) hdiv
      unfold digitsVal at this
      rw [this]
      omega

/-- The JS decimal rendering round-trips through `digitsVal`. -/
theorem digitsVal_jsDigits (n : ℕ) : digitsVal (jsDigits n) = n := by
  by_cases h0 : n = 0
  · simp [jsDigits, h0, digitsVal]
  · simp only [jsDigits, h0, if_false]
    exact digitsVal_digitsAux n n le_rfl

/-- A string of zero digits has value 0. -/
theorem digitsVal_replicate_zero (k : ℕ) : digitsVal (List.replicate k 0) = 0 := by
  induction k with
  | zero => rfl
  | succ m ih =>
    unfold digitsVal at *
    simp [List.replicate_succ, List.foldr, ih]

/-- Appended zero digits (leading zeros of the rendered string) do not
change the value. -/
theorem digitsVal_append_zeros (l : List ℕ) (k : ℕ) :
    digitsVal (l ++ List.replicate k 0) = digitsVal l := by
  unfold digitsVal
  rw [List.foldr_append]
  have h := digitsVal_replicate_zero k
  unfold digitsVal at h
  rw [h]

/-- A padded service code still evaluates to its sequence number… -/
theorem digitsVal_serviceCodeOf (n : ℕ) : digitsVal (serviceCodeOf n) = n := by
  unfold serviceCodeOf padStart8
  rw [digitsVal_append_zeros, digitsVal_jsDigits]

/-- …so distinct sequence numbers yield distinct codes. -/
theorem serviceCodeOf_injective (m n : ℕ) (h : serviceCodeOf m = serviceCodeOf n) : m = n := by
  have := congrArg digitsVal h
  rwa [digitsVal_serviceCodeOf, digitsVal_serviceCodeOf] at this

/-- One in-flight `createService` call of the count-then-format middleware:
it first reads the current document count, then inserts the document with
code `SRV`-pad(readCount + 1). -/
structure CreationProc where
  readCount : Option ℕ
  code : Option (List ℕ)

/-- The shared state: the number of persisted service documents and the
per-creation progress (creations are indexed by ℕ). -/
structure NumberingState where
  dbCount : ℕ
  procs : ℕ → CreationProc

/-- One atomic step of creation `i`: perform its count read if still
pending, otherwise its insert (`countDocuments` then
`SRV${String(count + 1).padStart(8, '0')}`, lines 376–383); a finished
creation does nothing. -/
def stepProc (st : NumberingState) (i : ℕ) : NumberingState :=
  let p := st.procs i
  match p.readCount, p.code with
  | none, _ =>
    { st with procs := fun j => if j = i then { p with readCount := some st.dbCount } else st.procs j }
  | some c, none =>
    { dbCount := st.dbCount + 1,
      procs := fun j => if j = i then { p with code := some (serviceCodeOf (c + 1)) } else st.procs j }
  | some _, some _ => st

/-- Run an interleaving: the schedule lists which creation acts at each
instant. -/
def runSched (st : NumberingState) (sched : List ℕ) : NumberingState :=
  sched.foldl stepProc st

/-- Initial state: `c0` documents already persisted, no creation started. -/
def initNumbering (c0 : ℕ) : NumberingState :=
  { dbCount := c0, procs := fun _ => { readCount := none, code := none } }

/-- The fully serialised schedule of `k` creations: each one reads and
inserts before the next starts. -/
def seqSched : ℕ → List ℕ
  | 0 => []
  | k + 1 => seqSched k ++ [k, k]

/-- claim C8 counterexample: in the interleaving where two creations both
read the count before either inserts (schedule 0, 1, 0, 1 from an empty
collection), both compute sequence `0 + 1` and emit the same code
`SRV00000001` — the generated codes are neither unique nor strictly
increasing. -/
theorem claim_C8_counterexample :
    ((runSched (initNumbering 0) [0, 1, 0, 1]).procs 0).code = some (serviceCodeOf 1)
      ∧ ((runSched (initNumbering 0) [0, 1, 0, 1]).procs 1).code = some (serviceCodeOf 1)
      ∧ ((runSched (initNumbering 0) [0, 1, 0, 1]).procs 0).code
          = ((runSched (initNumbering 0) [0, 1, 0, 1]).procs 1).code := by
  refine ⟨rfl, rfl, rfl⟩

/-- Characterisation of a serialised run: after `j` completed creations the
count has advanced by `j` and creation `i < j` carries code
`SRV`-pad(c0 + i + 1), while the rest have not started. -/
theorem runSched_seqSched (c0 : ℕ) :
    ∀ j : ℕ,
      (runSched (initNumbering c0) (seqSched j)).dbCount = c0 + j
      ∧ ∀ i : ℕ,
          (runSched (initNumbering c0) (seqSched j)).procs i
            = if i < j then
                { readCount := some (c0 + i), code := some (serviceCodeOf (c0 + i + 1)) }
              else { readCount := none, code := none } := by
  intro j
  induction j with
  | zero =>
    constructor
    · rfl
    · intro i
      simp [runSched, seqSched, initNumbering]
  | succ k ih =>
    obtain ⟨hc, hp⟩ := ih
    have hsucc : seqSched (k + 1) = seqSched k ++ [k, k] := rfl
    have hstep : runSched (initNumbering c0) (seqSched (k + 1))
        = stepProc (stepProc (runSched (initNumbering c0) (seqSched k)) k) k := by
      rw [hsucc]
      unfold runSched
      rw [List.foldl_append]
      rfl
    have hk1 : stepProc (runSched (initNumbering c0) (seqSched k)) k
        = { dbCount := c0 + k,
            procs := fun j =>
              if j = k then { readCount := some (c0 + k), code := none }
              else (runSched (initNumbering c0) (seqSched k)).procs j } := by
      unfold stepProc
      rw [hp k]
      simp [hc]
    have hk2 : stepProc (stepProc (runSched (initNumbering c0) (seqSched k)) k) k
        = { dbCount := c0 + k + 1,
            procs := fun j =>
              if j = k then
                { readCount := some (c0 + k), code := some (serviceCodeOf (c0 + k + 1)) }
              else (runSched (initNumbering c0) (seqSched k)).procs j } := by
      rw [hk1]
      unfold stepProc
      simp
      funext j
      by_cases hj : j = k <;> simp [hj]
    rw [hstep, hk2]
    refine ⟨by simp [Nat.add_assoc], ?_⟩
    intro i
    by_cases hik : i = k
    · simp [hik]
    · have := hp i
      simp only [hik, if_false]
      rw [this]
      by_cases hlt : i < k
      · have : i < k + 1 := by omega
        simp [hlt, this]
      · have : ¬ i < k + 1 := by omega
        simp [hlt, this]

/-- claim C8 (amended): generated service codes are strictly increasing and
pairwise unique when the `k` creations are serialised (each count read and
insert completes before the next creation begins); raced interleavings can
duplicate codes, as the counterexample shows.  Creation `i` gets the code
with sequence number `c0 + i + 1`, so later creations carry strictly larger
sequence numbers and all codes are pairwise distinct. -/
theorem claim_C8_amended :
    ∀ (c0 k i j : ℕ), i < j → j < k →
      ((runSched (initNumbering c0) (seqSched k)).procs i).code = some (serviceCodeOf (c0 + i + 1))
      ∧ ((runSched (initNumbering c0) (seqSched k)).procs j).code = some (serviceCodeOf (c0 + j + 1))
      ∧ digitsVal (serviceCodeOf (c0 + i + 1)) < digitsVal (serviceCodeOf (c0 + j + 1))
      ∧ serviceCodeOf (c0 + i + 1) ≠ serviceCodeOf (c0 + j + 1) := by
  intro c0 k i j hij hjk
  have hchar := (runSched_seqSched c0 k).2
  have hi : i < k := by omega
  refine ⟨?_, ?_, ?_, ?_⟩
  · rw [hchar i]; simp [hi]
  · rw [hchar j]; simp [hjk]
  · rw [digitsVal_serviceCodeOf, digitsVal_serviceCodeOf]; omega
  · intro h
    have := serviceCodeOf_injective _ _ h
    omega

/-- claim C8, witness: three serialised creations over an empty collection
give creations 0 and 2 the codes `SRV00000001` and `SRV00000003`, with
strictly increasing values and distinct digit strings. -/
theorem claim_C8_witness :
    ((runSched (initNumbering 0) (seqSched 3)).procs 0).code = some (serviceCodeOf 1)
      ∧ ((runSched (initNumbering 0) (seqSched 3)).procs 2).code = some (serviceCodeOf 3)
      ∧ digitsVal (serviceCodeOf 1) < digitsVal (serviceCodeOf 3)
      ∧ serviceCodeOf 1 ≠ serviceCodeOf 3 := by
  have h := claim_C8_amended 0 3 0 2 (by decide) (by decide)
  exact h
